import Mathlib

/-!
Shallow embedding of `src/data_migration.py` (the `migrate` function and the
three ORM row types it writes), together with proofs of the spec's claims
about it.

Modelling notes, justified against the source:

* The relational store is a `Store`: one list per table (`car_brand`,
  `car_model`, `car_info`), in insertion order, plus the auto-increment
  counters for the two surrogate keys that the code actually reads back
  (`car_brand_id`, `car_model_id`).  `car_info_id` is generated by the
  database but never read by `migrate`, so it is omitted from `CarInfo`;
  `filter_by(**i)` in the listing phase matches exactly the four data fields.
* Timestamp columns (`*_created_at`, `*_updated_at`) are set by the database
  and never read or compared by `migrate`; they are omitted.
* `car_price` is a float in the schema; `migrate` only carries it from the
  CSV into the row and compares it for equality, so it is embedded as `Int`.
* `pandas` particulars: `Series.unique()` returns the distinct values in
  order of first occurrence (`uniqueFirst` below); `dict([(k, v), ...])`
  lets later pairs overwrite earlier ones, so a lookup returns the value of
  the LAST matching pair (`dlookup` below); `Series.replace(dict)` leaves a
  value unchanged when it is not a key of the dict — in `migrate` this case
  is unreachable because the dict is rebuilt from the whole table right
  after every missing name was inserted (proved as `brandDict_covers` /
  `modelDict_covers` below), so the rewrite is embedded with a `getD 0`
  default on that dead branch.  `df.groupby([a, b]).size().reset_index()`
  yields the distinct key pairs (pandas sorts them; the claims proved here
  are insensitive to the order of this distinct list, so it is embedded as
  first-occurrence distinct as well).
* `SessionFactory` has `autoflush=False` and each phase runs its existence
  queries before `session.add_all`, so every existence check of a phase sees
  only the rows committed before that phase's single commit.
-/

/-- One row of `data.csv`, as produced by the scraper and read by
`pd.read_csv`: columns `brand_name, model_name, price, manufactured_year,
mileage`. -/
structure Row where
  brand_name : String
  model_name : String
  price : Int
  manufactured_year : Int
  mileage : String
deriving DecidableEq, Repr

/-- A `car_brand` table row (the columns `migrate` reads and writes). -/
structure CarBrand where
  car_brand_id : Nat
  car_brand_name : String
deriving DecidableEq, Repr

/-- A `car_model` table row (the columns `migrate` reads and writes). -/
structure CarModel where
  car_model_id : Nat
  car_model_name : String
  car_brand_id : Nat
deriving DecidableEq, Repr

/-- A `car_info` table row: the four data columns; the surrogate key
`car_info_id` is never read by `migrate` and is omitted. -/
structure CarInfo where
  car_manufactured_year : Int
  car_mileage : String
  car_price : Int
  car_model_id : Nat
deriving DecidableEq, Repr

/-- The relational store: the three tables in insertion order plus the
auto-increment counters for the surrogate keys `migrate` reads back. -/
structure Store where
  brands : List CarBrand
  models : List CarModel
  cars : List CarInfo
  nextBrandId : Nat
  nextModelId : Nat
deriving DecidableEq, Repr

/-- A store with empty tables, as produced by `create_table` on a fresh
database. -/
def emptyStore : Store := ⟨[], [], [], 0, 0⟩

/-- `pandas.Series.unique()`: the distinct values of a column, in order of
first occurrence (each value kept at its first occurrence, later duplicates
dropped). -/
def uniqueFirst {α : Type} [DecidableEq α] : List α → List α
  | [] => []
  | a :: l => a :: (uniqueFirst l).filter (fun x => x ≠ a)

/-- Lookup in a Python `dict` built from an association list by
`dict([(k, v) for ...])`: later pairs overwrite earlier ones, so the LAST
matching pair wins. -/
def dlookup (m : List (String × Nat)) (key : String) : Option Nat :=
  (m.reverse.find? (fun p => p.1 == key)).map Prod.snd

/-- The `data_dict` of the brand step: `[(i["car_brand_name"],
i["car_brand_id"]) for i in data_dict]` over `session.query(CarBrand).all()`
(the store's brand list, in order). -/
def brandDict (bs : List CarBrand) : List (String × Nat) :=
  bs.map (fun b => (b.car_brand_name, b.car_brand_id))

/-- The `data_dict` of the model step: `[(i["car_model_name"],
i["car_model_id"]) for i in data_dict]` over `session.query(CarModel).all()`. -/
def modelDict (ms : List CarModel) : List (String × Nat) :=
  ms.map (fun m => (m.car_model_name, m.car_model_id))

/-- Brand names of the input that pass the existence check: the list
comprehension `[CarBrand(car_brand_name=brand) for brand in all_brand if not
session.query(CarBrand).filter(CarBrand.car_brand_name == brand).all()]`. -/
def stagedBrands (s : Store) (df : List Row) : List String :=
  (uniqueFirst (df.map Row.brand_name)).filter
    (fun b => (s.brands.filter (fun cb => cb.car_brand_name == b)).isEmpty)

/-- The database assigning consecutive auto-increment ids to a committed
batch of new brand rows. -/
def assignBrandIds (start : Nat) : List String → List CarBrand
  | [] => []
  | n :: rest => ⟨start, n⟩ :: assignBrandIds (start + 1) rest

/-- Phase 1 of `migrate`: stage every missing brand name, `session.add_all`
and `session.commit()` the batch (a no-op when the batch is empty). -/
def brandPhase (s : Store) (df : List Row) : Store :=
  { s with
    brands := s.brands ++ assignBrandIds s.nextBrandId (stagedBrands s df),
    nextBrandId := s.nextBrandId + (stagedBrands s df).length }

/-- The store right after the brand commit; `session.query(CarBrand).all()`
returns `(afterBrandPhase s df).brands`. -/
def afterBrandPhase (s : Store) (df : List Row) : Store := brandPhase s df

/-- `target_model`: rewrite the `brand_name` column through the brand dict
(`df["brand_name"].replace(data_dict)`), then take the distinct
`(car_brand_id, car_model_name)` pairs (`df.groupby([...]).size()
.reset_index()`).  The `getD 0` branch is unreachable: `brandDict_covers`
proves the lookup succeeds for every row of the input. -/
def targetModels (bmap : List (String × Nat)) (df : List Row) :
    List (Nat × String) :=
  uniqueFirst (df.map (fun r => ((dlookup bmap r.brand_name).getD 0, r.model_name)))

/-- The distinct `(brand_id, model_name)` pairs computed by `migrate` on
store `s` and input `df`. -/
def brandPairs (s : Store) (df : List Row) : List (Nat × String) :=
  targetModels (brandDict (afterBrandPhase s df).brands) df

/-- Pairs that pass the model existence check: `[CarModel(**i) for i in
target_model_list if not session.query(CarModel).filter(CarModel
.car_model_name == i["car_model_name"]).all()]` — the lookup is by model
NAME only, the brand id plays no part in it. -/
def stagedModels (s : Store) (pairs : List (Nat × String)) :
    List (Nat × String) :=
  pairs.filter (fun p => (s.models.filter (fun m => m.car_model_name == p.2)).isEmpty)

/-- The database assigning consecutive auto-increment ids to a committed
batch of new model rows. -/
def assignModelIds (start : Nat) : List (Nat × String) → List CarModel
  | [] => []
  | p :: rest => ⟨start, p.2, p.1⟩ :: assignModelIds (start + 1) rest

/-- Phase 2 of `migrate`: stage every pair whose model name is missing,
`session.add_all` and `session.commit()` the batch. -/
def modelPhase (s : Store) (pairs : List (Nat × String)) : Store :=
  { s with
    models := s.models ++ assignModelIds s.nextModelId (stagedModels s pairs),
    nextModelId := s.nextModelId + (stagedModels s pairs).length }

/-- The store right after the model commit; `session.query(CarModel).all()`
returns `(afterModelPhase s df).models`. -/
def afterModelPhase (s : Store) (df : List Row) : Store :=
  modelPhase (afterBrandPhase s df) (brandPairs s df)

/-- One record of `target_car`: the row projected to `model_name, price,
manufactured_year, mileage`, with `model_name` rewritten through the model
dict (`df["model_name"].replace(data_dict)`) and renamed to `car_model_id`.
The `getD 0` branch is unreachable (`modelDict_covers`). -/
def mkCar (mmap : List (String × Nat)) (r : Row) : CarInfo :=
  ⟨r.manufactured_year, r.mileage, r.price, (dlookup mmap r.model_name).getD 0⟩

/-- `target_car`: every input row (no dedup step here), projected and
rewritten. -/
def targetCars (mmap : List (String × Nat)) (df : List Row) : List CarInfo :=
  df.map (mkCar mmap)

/-- The list `target_car` computed by `migrate` on store `s` and input
`df`. -/
def listingBatch (s : Store) (df : List Row) : List CarInfo :=
  targetCars (modelDict (afterModelPhase s df).models) df

/-- `session.query(CarInfo).filter_by(**i)`: an existing row matches a
candidate exactly when all four data fields are equal. -/
def carMatch (e c : CarInfo) : Bool :=
  e.car_manufactured_year == c.car_manufactured_year &&
  e.car_mileage == c.car_mileage &&
  e.car_price == c.car_price &&
  e.car_model_id == c.car_model_id

/-- Candidate listing rows that pass the existence check: `[CarInfo(**i) for
i in target_car if not session.query(CarInfo).filter_by(**i).all()]`. -/
def stagedCars (s : Store) (cars : List CarInfo) : List CarInfo :=
  cars.filter (fun c => (s.cars.filter (fun e => carMatch e c)).isEmpty)

/-- Phase 3 of `migrate`: stage every unmatched candidate row, `add_all` and
`commit` the batch. -/
def listingPhase (s : Store) (cars : List CarInfo) : Store :=
  { s with cars := s.cars ++ stagedCars s cars }

/-- The body of `migrate` once `data.csv` was read into `df`: the three
phases in order, with the dict rebuild and column rewrite between them. -/
def migrateRun (s : Store) (df : List Row) : Store :=
  listingPhase (afterModelPhase s df) (listingBatch s df)

/-- `migrate`: when `data.csv` is absent (`csv = none`) it logs a warning
and returns without touching the store; otherwise it runs the three
phases. -/
def migrate (s : Store) (csv : Option (List Row)) : Store :=
  match csv with
  | none => s
  | some df => migrateRun s df

/-- Running only a prefix of the phases: `migratePhases s df k` is the store
after the first `k` commits (`k ≥ 3` is the full run); a store-level failure
that aborts a later phase leaves the store at one of these states. -/
def migratePhases (s : Store) (df : List Row) (k : Nat) : Store :=
  if k = 0 then s
  else if k = 1 then afterBrandPhase s df
  else if k = 2 then afterModelPhase s df
  else migrateRun s df

/-! ### Helper lemmas about the embedding -/

theorem mem_uniqueFirst {α : Type} [DecidableEq α] (l : List α) (x : α) :
    x ∈ uniqueFirst l ↔ x ∈ l := by
  induction l with
  | nil => simp [uniqueFirst]
  | cons a l ih =>
    simp only [uniqueFirst, List.mem_cons, List.mem_filter, ih,
      decide_eq_true_eq]
    by_cases hx : x = a
    · simp [hx]
    · simp [hx]

theorem nodup_uniqueFirst {α : Type} [DecidableEq α] (l : List α) :
    (uniqueFirst l).Nodup := by
  induction l with
  | nil => simp [uniqueFirst]
  | cons a l ih =>
    simp only [uniqueFirst, List.nodup_cons]
    refine ⟨fun hmem => ?_, ih.filter _⟩
    have h2 := (List.mem_filter.mp hmem).2
    simp at h2

theorem dlookup_mem {m : List (String × Nat)} {k : String} {v : Nat}
    (h : dlookup m k = some v) : (k, v) ∈ m := by
  unfold dlookup at h
  cases hf : m.reverse.find? (fun p => p.1 == k) with
  | none => rw [hf] at h; cases h
  | some q =>
    rw [hf] at h
    have hq1 : q.1 = k := by
      have := List.find?_some hf
      simpa using this
    have hqm : q ∈ m := List.mem_reverse.mp (List.mem_of_find?_eq_some hf)
    have hq2 : q.2 = v := by simpa using h
    have : (k, v) = q := by
      cases q
      simp_all
    rwa [this]

theorem dlookup_eq_none_iff {m : List (String × Nat)} {k : String} :
    dlookup m k = none ↔ ∀ p ∈ m, p.1 ≠ k := by
  unfold dlookup
  rw [Option.map_eq_none', List.find?_eq_none]
  constructor
  · intro h p hp
    have := h p (List.mem_reverse.mpr hp)
    simpa using this
  · intro h p hp
    have := h p (List.mem_reverse.mp hp)
    simpa using this

theorem dlookup_isSome (m : List (String × Nat)) {k : String}
    (h : ∃ p ∈ m, p.1 = k) : ∃ v, dlookup m k = some v := by
  cases hl : dlookup m k with
  | some v => exact ⟨v, rfl⟩
  | none =>
    obtain ⟨p, hp, hpk⟩ := h
    exact absurd hpk (dlookup_eq_none_iff.mp hl p hp)

theorem assignBrandIds_map_name (start : Nat) (ns : List String) :
    (assignBrandIds start ns).map CarBrand.car_brand_name = ns := by
  induction ns generalizing start with
  | nil => rfl
  | cons n rest ih => simp [assignBrandIds, ih]

theorem mem_assignBrandIds {start : Nat} {ns : List String} {b : CarBrand}
    (h : b ∈ assignBrandIds start ns) : b.car_brand_name ∈ ns := by
  have := List.mem_map_of_mem CarBrand.car_brand_name h
  rwa [assignBrandIds_map_name] at this

theorem exists_assignBrandIds (start : Nat) {ns : List String} {n : String}
    (h : n ∈ ns) : ∃ b ∈ assignBrandIds start ns, b.car_brand_name = n := by
  have : n ∈ (assignBrandIds start ns).map CarBrand.car_brand_name := by
    rwa [assignBrandIds_map_name]
  obtain ⟨b, hb, hbn⟩ := List.mem_map.mp this
  exact ⟨b, hb, hbn⟩

theorem assignModelIds_map_name (start : Nat) (ps : List (Nat × String)) :
    (assignModelIds start ps).map CarModel.car_model_name = ps.map Prod.snd := by
  induction ps generalizing start with
  | nil => rfl
  | cons p rest ih => simp [assignModelIds, ih]

theorem mem_assignModelIds {start : Nat} {ps : List (Nat × String)} {m : CarModel}
    (h : m ∈ assignModelIds start ps) :
    (m.car_brand_id, m.car_model_name) ∈ ps := by
  induction ps generalizing start with
  | nil => simp [assignModelIds] at h
  | cons p rest ih =>
    simp only [assignModelIds, List.mem_cons] at h
    rcases h with rfl | h
    · exact List.mem_cons_self _ _
    · exact List.mem_cons_of_mem _ (ih h)

theorem exists_assignModelIds (start : Nat) {ps : List (Nat × String)}
    {p : Nat × String} (h : p ∈ ps) :
    ∃ m ∈ assignModelIds start ps,
      m.car_model_name = p.2 ∧ m.car_brand_id = p.1 := by
  induction ps generalizing start with
  | nil => simp at h
  | cons q rest ih =>
    rcases List.mem_cons.mp h with rfl | h
    · exact ⟨⟨start, p.2, p.1⟩, List.mem_cons_self _ _, rfl, rfl⟩
    · obtain ⟨m, hm, hmn, hmb⟩ := ih (start + 1) h
      exact ⟨m, List.mem_cons_of_mem _ hm, hmn, hmb⟩

theorem afterBrandPhase_brands (s : Store) (df : List Row) :
    (afterBrandPhase s df).brands
      = s.brands ++ assignBrandIds s.nextBrandId (stagedBrands s df) := rfl

theorem afterBrandPhase_models (s : Store) (df : List Row) :
    (afterBrandPhase s df).models = s.models := rfl

theorem afterBrandPhase_cars (s : Store) (df : List Row) :
    (afterBrandPhase s df).cars = s.cars := rfl

theorem modelPhase_models (s : Store) (pairs : List (Nat × String)) :
    (modelPhase s pairs).models
      = s.models ++ assignModelIds s.nextModelId (stagedModels s pairs) := rfl

theorem afterModelPhase_brands (s : Store) (df : List Row) :
    (afterModelPhase s df).brands = (afterBrandPhase s df).brands := rfl

theorem afterModelPhase_models (s : Store) (df : List Row) :
    (afterModelPhase s df).models
      = s.models ++ assignModelIds s.nextModelId
          (stagedModels (afterBrandPhase s df) (brandPairs s df)) := rfl

theorem afterModelPhase_cars (s : Store) (df : List Row) :
    (afterModelPhase s df).cars = s.cars := rfl

theorem migrateRun_brands (s : Store) (df : List Row) :
    (migrateRun s df).brands = (afterBrandPhase s df).brands := rfl

theorem migrateRun_models (s : Store) (df : List Row) :
    (migrateRun s df).models = (afterModelPhase s df).models := rfl

theorem migrateRun_cars (s : Store) (df : List Row) :
    (migrateRun s df).cars
      = s.cars ++ stagedCars (afterModelPhase s df) (listingBatch s df) := rfl

theorem carMatch_iff_eq (e c : CarInfo) : carMatch e c = true ↔ e = c := by
  cases e
  cases c
  simp [carMatch, and_assoc]

theorem carMatch_refl (c : CarInfo) : carMatch c c = true := by
  rw [carMatch_iff_eq]

theorem exists_brand_named (s : Store) (df : List Row) {r : Row} (hr : r ∈ df) :
    ∃ b ∈ (afterBrandPhase s df).brands, b.car_brand_name = r.brand_name := by
  by_cases hg : (s.brands.filter (fun cb => cb.car_brand_name == r.brand_name)).isEmpty
  · have hn : r.brand_name ∈ uniqueFirst (df.map Row.brand_name) := by
      rw [mem_uniqueFirst]
      exact List.mem_map_of_mem _ hr
    have hst : r.brand_name ∈ stagedBrands s df := by
      rw [stagedBrands, List.mem_filter]
      exact ⟨hn, hg⟩
    obtain ⟨b, hb, hbn⟩ := exists_assignBrandIds s.nextBrandId hst
    refine ⟨b, ?_, hbn⟩
    rw [afterBrandPhase_brands]
    exact List.mem_append_right _ hb
  · have hne : s.brands.filter (fun cb => cb.car_brand_name == r.brand_name) ≠ [] := by
      intro hnil
      exact hg (by simp [hnil])
    obtain ⟨b, hb⟩ := List.exists_mem_of_ne_nil _ hne
    have hb2 := List.mem_filter.mp hb
    refine ⟨b, ?_, by simpa using hb2.2⟩
    rw [afterBrandPhase_brands]
    exact List.mem_append_left _ hb2.1

theorem brandDict_covers (s : Store) (df : List Row) {r : Row} (hr : r ∈ df) :
    ∃ i, dlookup (brandDict (afterBrandPhase s df).brands) r.brand_name = some i := by
  obtain ⟨b, hb, hbn⟩ := exists_brand_named s df hr
  exact dlookup_isSome _ ⟨(b.car_brand_name, b.car_brand_id),
    List.mem_map_of_mem _ hb, hbn⟩

theorem exists_model_named (s : Store) (pairs : List (Nat × String))
    {p : Nat × String} (hp : p ∈ pairs) :
    ∃ m ∈ (modelPhase s pairs).models, m.car_model_name = p.2 := by
  by_cases hg : (s.models.filter (fun m => m.car_model_name == p.2)).isEmpty
  · have hst : p ∈ stagedModels s pairs := by
      rw [stagedModels, List.mem_filter]
      exact ⟨hp, hg⟩
    obtain ⟨m, hm, hmn, _⟩ := exists_assignModelIds s.nextModelId hst
    refine ⟨m, ?_, hmn⟩
    rw [modelPhase_models]
    exact List.mem_append_right _ hm
  · have hne : s.models.filter (fun m => m.car_model_name == p.2) ≠ [] := by
      intro hnil
      exact hg (by simp [hnil])
    obtain ⟨m, hm⟩ := List.exists_mem_of_ne_nil _ hne
    have hm2 := List.mem_filter.mp hm
    refine ⟨m, ?_, by simpa using hm2.2⟩
    rw [modelPhase_models]
    exact List.mem_append_left _ hm2.1

theorem mem_brandPairs (s : Store) (df : List Row) {r : Row} (hr : r ∈ df) :
    ((dlookup (brandDict (afterBrandPhase s df).brands) r.brand_name).getD 0,
      r.model_name) ∈ brandPairs s df := by
  rw [brandPairs, targetModels, mem_uniqueFirst]
  exact List.mem_map_of_mem _ hr

theorem brandPairs_shape (s : Store) (df : List Row) {p : Nat × String}
    (hp : p ∈ brandPairs s df) :
    ∃ r ∈ df, p.2 = r.model_name ∧
      p.1 = (dlookup (brandDict (afterBrandPhase s df).brands) r.brand_name).getD 0 := by
  rw [brandPairs, targetModels, mem_uniqueFirst] at hp
  obtain ⟨r, hr, hpr⟩ := List.mem_map.mp hp
  exact ⟨r, hr, by rw [← hpr], by rw [← hpr]⟩

theorem exists_model_named_of_mem_df (s : Store) (df : List Row) {r : Row}
    (hr : r ∈ df) :
    ∃ m ∈ (afterModelPhase s df).models, m.car_model_name = r.model_name :=
  exists_model_named (afterBrandPhase s df) (brandPairs s df) (mem_brandPairs s df hr)

theorem modelDict_covers (s : Store) (df : List Row) {r : Row} (hr : r ∈ df) :
    ∃ i, dlookup (modelDict (afterModelPhase s df).models) r.model_name = some i := by
  obtain ⟨m, hm, hmn⟩ := exists_model_named_of_mem_df s df hr
  exact dlookup_isSome _ ⟨(m.car_model_name, m.car_model_id),
    List.mem_map_of_mem _ hm, hmn⟩

/-! ### The claims -/

/-- C6: when `data.csv` is absent, `migrate` logs a warning and returns
without raising and without any store mutation — the whole store, and in
particular every Brand, Model and Listing row, is exactly as before the
call, and no new rows exist. -/
theorem migrate_missing_input_noop (s : Store) :
    migrate s none = s ∧
    (migrate s none).brands = s.brands ∧
    (migrate s none).models = s.models ∧
    (migrate s none).cars = s.cars :=
  ⟨rfl, rfl, rfl, rfl⟩

/-- C7: each phase stages its batch and commits it as exactly one append to
its own table (the other tables untouched), and the three commits are
independent: the store after `k` completed phases (`migratePhases s df k`,
the state a store-level failure in a later phase would leave behind) agrees
with the full run on every table committed by the first `k` phases, so
earlier commits survive a later phase's failure; all-or-nothing holds per
phase, not across phases. -/
theorem migrate_three_independent_commits (s : Store) (df : List Row) :
    migrateRun s df = migratePhases s df 3 ∧
    (∃ newBrands, (migratePhases s df 1).brands = s.brands ++ newBrands) ∧
    (migratePhases s df 1).models = s.models ∧
    (migratePhases s df 1).cars = s.cars ∧
    (∃ newModels,
      (migratePhases s df 2).models = (migratePhases s df 1).models ++ newModels) ∧
    (migratePhases s df 2).brands = (migratePhases s df 1).brands ∧
    (migratePhases s df 2).cars = (migratePhases s df 1).cars ∧
    (∃ newCars, (migratePhases s df 3).cars = (migratePhases s df 2).cars ++ newCars) ∧
    (migratePhases s df 3).brands = (migratePhases s df 2).brands ∧
    (migratePhases s df 3).models = (migratePhases s df 2).models ∧
    (migratePhases s df 1).brands = (migrateRun s df).brands ∧
    (migratePhases s df 2).models = (migrateRun s df).models :=
  ⟨rfl, ⟨_, rfl⟩, rfl, rfl, ⟨_, rfl⟩, rfl, rfl, ⟨_, rfl⟩, rfl, rfl, rfl, rfl⟩

/-- C8: after the brand phase's commit the name→id dict is rebuilt from ALL
Brand rows of the store (the pre-existing rows followed by the newly
inserted batch), it has an entry for every brand name occurring in the
input, and the dataset's brand column is rewritten into pairs using exactly
this dict. -/
theorem brand_map_rebuilt_complete (s : Store) (df : List Row) :
    (afterBrandPhase s df).brands
      = s.brands ++ assignBrandIds s.nextBrandId (stagedBrands s df) ∧
    (∀ r ∈ df, ∃ i,
      dlookup (brandDict (afterBrandPhase s df).brands) r.brand_name = some i) ∧
    brandPairs s df = targetModels (brandDict (afterBrandPhase s df).brands) df :=
  ⟨rfl, fun _ hr => brandDict_covers s df hr, rfl⟩

theorem mem_stagedCars_iff (s : Store) (cars : List CarInfo) (c : CarInfo) :
    c ∈ stagedCars s cars ↔ c ∈ cars ∧ ∀ e ∈ s.cars, carMatch e c = false := by
  rw [stagedCars, List.mem_filter]
  constructor
  · rintro ⟨h1, h2⟩
    refine ⟨h1, fun e he => ?_⟩
    simp only [List.isEmpty_eq_true, List.filter_eq_nil_iff] at h2
    have := h2 e he
    simpa using this
  · rintro ⟨h1, h2⟩
    refine ⟨h1, ?_⟩
    simp only [List.isEmpty_eq_true, List.filter_eq_nil_iff]
    intro e he
    simp [h2 e he]

theorem mem_stagedModels_iff (s : Store) (pairs : List (Nat × String))
    (p : Nat × String) :
    p ∈ stagedModels s pairs ↔
      p ∈ pairs ∧ ∀ m ∈ s.models, m.car_model_name ≠ p.2 := by
  rw [stagedModels, List.mem_filter]
  constructor
  · rintro ⟨h1, h2⟩
    refine ⟨h1, fun m hm => ?_⟩
    simp only [List.isEmpty_eq_true, List.filter_eq_nil_iff] at h2
    have := h2 m hm
    simpa using this
  · rintro ⟨h1, h2⟩
    refine ⟨h1, ?_⟩
    simp only [List.isEmpty_eq_true, List.filter_eq_nil_iff]
    intro m hm
    simp [h2 m hm]

/-- C2: in the listing upsert phase a candidate row is skipped (not staged)
if and only if some existing Listing row matches it on all four fields
(`model_id`, `price`, `manufactured_year`, `mileage`) exactly; every
candidate row that differs from every existing Listing in at least one of
the four fields is inserted into the store. -/
theorem listing_exact_match_dedup (s : Store) (df : List Row) :
    (migrateRun s df).cars
      = s.cars ++ stagedCars (afterModelPhase s df) (listingBatch s df) ∧
    ∀ c ∈ listingBatch s df,
      ((c ∉ stagedCars (afterModelPhase s df) (listingBatch s df)) ↔
        ∃ e ∈ s.cars, carMatch e c = true) ∧
      ((∀ e ∈ s.cars, carMatch e c = false) → c ∈ (migrateRun s df).cars) := by
  refine ⟨rfl, fun c hc => ?_⟩
  have hchar := mem_stagedCars_iff (afterModelPhase s df) (listingBatch s df) c
  rw [afterModelPhase_cars] at hchar
  refine ⟨⟨fun hnot => ?_, ?_⟩, fun hall => ?_⟩
  · by_contra hne
    push_neg at hne
    refine hnot (hchar.mpr ⟨hc, fun e he => ?_⟩)
    have := hne e he
    simpa using this
  · rintro ⟨e, he, hm⟩ hstaged
    have := (hchar.mp hstaged).2 e he
    rw [this] at hm
    cases hm
  · rw [migrateRun_cars]
    exact List.mem_append_right _ (hchar.mpr ⟨hc, hall⟩)

/-- C4: the model phase's existence check consults the Model NAME only, not
the brand id: a distinct pair of the rewritten dataset is staged exactly
when no Model row with that name exists in the store, and when an existing
Model (of whatever brand) already carries the name, no new Model row with
that name is inserted at all. -/
theorem model_dedup_name_only (s : Store) (df : List Row) :
    (afterModelPhase s df).models
      = s.models ++ assignModelIds s.nextModelId
          (stagedModels (afterBrandPhase s df) (brandPairs s df)) ∧
    ∀ p ∈ brandPairs s df,
      (p ∈ stagedModels (afterBrandPhase s df) (brandPairs s df) ↔
        ∀ m ∈ s.models, m.car_model_name ≠ p.2) ∧
      ((∃ m ∈ s.models, m.car_model_name = p.2) →
        ∀ m ∈ (afterModelPhase s df).models,
          m ∈ s.models ∨ m.car_model_name ≠ p.2) := by
  refine ⟨rfl, fun p hp => ?_⟩
  have hchar := mem_stagedModels_iff (afterBrandPhase s df) (brandPairs s df) p
  rw [afterBrandPhase_models] at hchar
  constructor
  · rw [hchar]
    exact ⟨fun h => h.2, fun h => ⟨hp, h⟩⟩
  · rintro ⟨m0, hm0, hm0n⟩ m hm
    rw [afterModelPhase_models] at hm
    rcases List.mem_append.mp hm with hm | hm
    · exact Or.inl hm
    · right
      intro hname
      have hpair := mem_assignModelIds hm
      have hch2 := mem_stagedModels_iff (afterBrandPhase s df) (brandPairs s df)
        (m.car_brand_id, m.car_model_name)
      rw [afterBrandPhase_models] at hch2
      have hne : m0.car_model_name ≠ m.car_model_name := (hch2.mp hpair).2 m0 hm0
      exact hne (hm0n.trans hname.symm)

theorem stagedBrands_nodup (s : Store) (df : List Row) :
    (stagedBrands s df).Nodup :=
  (nodup_uniqueFirst _).filter _

theorem stagedBrands_not_in_store {s : Store} {df : List Row} {n : String}
    (h : n ∈ stagedBrands s df) : ∀ b ∈ s.brands, b.car_brand_name ≠ n := by
  rw [stagedBrands, List.mem_filter] at h
  have hg := h.2
  simp only [List.isEmpty_eq_true, List.filter_eq_nil_iff] at hg
  intro b hb heq
  exact hg b hb (by simp [heq])

theorem pairwise_names_assignBrandIds {start : Nat} {ns : List String}
    (h : ns.Nodup) :
    (assignBrandIds start ns).Pairwise
      (fun a b => a.car_brand_name ≠ b.car_brand_name) := by
  induction ns generalizing start with
  | nil => exact List.Pairwise.nil
  | cons n rest ih =>
    rw [List.nodup_cons] at h
    refine List.Pairwise.cons ?_ (ih h.2)
    intro b hb heq
    apply h.1
    have hn : n = b.car_brand_name := heq
    rw [hn]
    exact mem_assignBrandIds hb

/-- C3: when no two Brand rows of the starting store share a name, no two
share a name after the brand phase; every staged name differs from every
name already present (so a re-run never inserts a brand name that is
already there); and on input rows with brand names
`["Toyota", "Toyota", "Honda"]` against an empty store, exactly 2 Brand
rows exist after the run. -/
theorem brand_name_never_duplicated (s : Store) (df : List Row)
    (h : s.brands.Pairwise (fun a b => a.car_brand_name ≠ b.car_brand_name)) :
    (afterBrandPhase s df).brands.Pairwise
      (fun a b => a.car_brand_name ≠ b.car_brand_name) ∧
    (∀ n ∈ stagedBrands s df, ∀ b ∈ s.brands, b.car_brand_name ≠ n) ∧
    (migrateRun emptyStore
        [⟨"Toyota", "Camry", 85000, 2019, "10000 - 20000"⟩,
         ⟨"Toyota", "Vios", 60000, 2020, "0 - 10000"⟩,
         ⟨"Honda", "Civic", 90000, 2021, "10000 - 20000"⟩]).brands.length = 2 := by
  refine ⟨?_, fun n hn => stagedBrands_not_in_store hn, by decide⟩
  rw [afterBrandPhase_brands, List.pairwise_append]
  refine ⟨h, pairwise_names_assignBrandIds (stagedBrands_nodup s df), ?_⟩
  intro a ha b hb
  exact stagedBrands_not_in_store (mem_assignBrandIds hb) a ha

/-- Witness for C3 at the empty store and a one-row input. -/
theorem brand_name_never_duplicated_witness :
    (emptyStore.brands.Pairwise
      (fun a b => a.car_brand_name ≠ b.car_brand_name)) ∧
    ((afterBrandPhase emptyStore [⟨"Kia", "Rio", 30000, 2018, "0 - 10000"⟩]).brands.Pairwise
        (fun a b => a.car_brand_name ≠ b.car_brand_name) ∧
      (∀ n ∈ stagedBrands emptyStore [⟨"Kia", "Rio", 30000, 2018, "0 - 10000"⟩],
        ∀ b ∈ emptyStore.brands, b.car_brand_name ≠ n) ∧
      (migrateRun emptyStore
          [⟨"Toyota", "Camry", 85000, 2019, "10000 - 20000"⟩,
           ⟨"Toyota", "Vios", 60000, 2020, "0 - 10000"⟩,
           ⟨"Honda", "Civic", 90000, 2021, "10000 - 20000"⟩]).brands.length = 2) :=
  ⟨List.Pairwise.nil,
    brand_name_never_duplicated emptyStore
      [⟨"Kia", "Rio", 30000, 2018, "0 - 10000"⟩] List.Pairwise.nil⟩

/-- Referential integrity of a store: every Listing points at an existing
Model and every Model points at an existing Brand. -/
def RefIntegrity (s : Store) : Prop :=
  (∀ c ∈ s.cars, ∃ m ∈ s.models, m.car_model_id = c.car_model_id) ∧
  (∀ m ∈ s.models, ∃ b ∈ s.brands, b.car_brand_id = m.car_brand_id)

theorem migrateRun_ref_integrity (s : Store) (df : List Row)
    (h : RefIntegrity s) : RefIntegrity (migrateRun s df) := by
  constructor
  · intro c hc
    rw [migrateRun_cars] at hc
    rw [migrateRun_models]
    rcases List.mem_append.mp hc with hc | hc
    · obtain ⟨m, hm, hmid⟩ := h.1 c hc
      rw [afterModelPhase_models]
      exact ⟨m, List.mem_append_left _ hm, hmid⟩
    · have hcb : c ∈ listingBatch s df :=
        ((mem_stagedCars_iff _ _ _).mp hc).1
      rw [listingBatch, targetCars] at hcb
      obtain ⟨r, hr, hrc⟩ := List.mem_map.mp hcb
      obtain ⟨i, hi⟩ := modelDict_covers s df hr
      have hmem := dlookup_mem hi
      rw [modelDict] at hmem
      obtain ⟨m, hm, hmp⟩ := List.mem_map.mp hmem
      have h1 : m.car_model_id = i := congrArg Prod.snd hmp
      have h2 : c.car_model_id = i := by
        rw [← hrc]
        show (dlookup (modelDict (afterModelPhase s df).models) r.model_name).getD 0 = i
        rw [hi]
        rfl
      exact ⟨m, hm, h1.trans h2.symm⟩
  · intro m hm
    rw [migrateRun_models, afterModelPhase_models] at hm
    rw [migrateRun_brands]
    rcases List.mem_append.mp hm with hm | hm
    · obtain ⟨b, hb, hbid⟩ := h.2 m hm
      rw [afterBrandPhase_brands]
      exact ⟨b, List.mem_append_left _ hb, hbid⟩
    · have hpair := mem_assignModelIds hm
      have hpairs : (m.car_brand_id, m.car_model_name) ∈ brandPairs s df :=
        List.mem_of_mem_filter hpair
      obtain ⟨r, hr, _, hfst⟩ := brandPairs_shape s df hpairs
      obtain ⟨i, hi⟩ := brandDict_covers s df hr
      have hbmem := dlookup_mem hi
      rw [brandDict] at hbmem
      obtain ⟨b, hb, hbp⟩ := List.mem_map.mp hbmem
      have hb2 : b.car_brand_id = i := congrArg Prod.snd hbp
      have hmb : m.car_brand_id = i := by
        have := hfst
        rw [hi] at this
        exact this
      exact ⟨b, hb, hb2.trans hmb.symm⟩

/-- C5: a run of `migrate` preserves referential integrity: afterwards every
Listing row's `model_id` is the id of some Model row, and that Model row's
`brand_id` is the id of some Brand row. -/
theorem migrate_referential_integrity (s : Store) (csv : Option (List Row))
    (h : RefIntegrity s) :
    RefIntegrity (migrate s csv) ∧
    ∀ c ∈ (migrate s csv).cars, ∃ m ∈ (migrate s csv).models,
      m.car_model_id = c.car_model_id ∧
      ∃ b ∈ (migrate s csv).brands, b.car_brand_id = m.car_brand_id := by
  have hri : RefIntegrity (migrate s csv) := by
    cases csv with
    | none => exact h
    | some df => exact migrateRun_ref_integrity s df h
  refine ⟨hri, fun c hc => ?_⟩
  obtain ⟨m, hm, hmid⟩ := hri.1 c hc
  obtain ⟨b, hb, hbid⟩ := hri.2 m hm
  exact ⟨m, hm, hmid, b, hb, hbid⟩

/-- Witness for C5 at the empty store and the spec's end-to-end example
row. -/
theorem migrate_referential_integrity_witness :
    RefIntegrity emptyStore ∧
    (RefIntegrity (migrate emptyStore
        (some [⟨"Toyota", "Camry", 85000, 2019, "10000 - 20000"⟩])) ∧
      ∀ c ∈ (migrate emptyStore
          (some [⟨"Toyota", "Camry", 85000, 2019, "10000 - 20000"⟩])).cars,
        ∃ m ∈ (migrate emptyStore
          (some [⟨"Toyota", "Camry", 85000, 2019, "10000 - 20000"⟩])).models,
          m.car_model_id = c.car_model_id ∧
          ∃ b ∈ (migrate emptyStore
            (some [⟨"Toyota", "Camry", 85000, 2019, "10000 - 20000"⟩])).brands,
            b.car_brand_id = m.car_brand_id) :=
  have hri : RefIntegrity emptyStore :=
    ⟨fun c hc => absurd hc (List.not_mem_nil c),
     fun m hm => absurd hm (List.not_mem_nil m)⟩
  ⟨hri, migrate_referential_integrity emptyStore
    (some [⟨"Toyota", "Camry", 85000, 2019, "10000 - 20000"⟩]) hri⟩

/-- C10: the listing phase's existence check compares candidates only
against Listing rows present in the store before the phase's insert, never
against rows staged in the same run: when no matching row pre-exists, every
occurrence of a candidate in `target_car` is inserted, so the final count of
that row equals its count in the batch — an input with two identical rows
and no pre-existing match yields two Listing rows in one run. -/
theorem listing_check_sees_only_prerun_rows (s : Store) (df : List Row)
    (c : CarInfo) (h : c ∉ s.cars) :
    (migrateRun s df).cars
      = s.cars ++ stagedCars (afterModelPhase s df) (listingBatch s df) ∧
    (migrateRun s df).cars.count c = (listingBatch s df).count c := by
  refine ⟨rfl, ?_⟩
  rw [migrateRun_cars, List.count_append]
  have h0 : s.cars.count c = 0 := List.count_eq_zero.mpr h
  rw [h0, Nat.zero_add, stagedCars]
  apply List.count_filter
  show ((afterModelPhase s df).cars.filter (fun e => carMatch e c)).isEmpty = true
  rw [afterModelPhase_cars]
  simp only [List.isEmpty_eq_true, List.filter_eq_nil_iff]
  intro e he heq
  rw [carMatch_iff_eq] at heq
  exact h (heq ▸ he)

/-- Witness for C10: an input of two identical rows against the empty store;
the candidate row occurs twice in the batch and twice in the final store. -/
theorem listing_check_sees_only_prerun_rows_witness :
    ((⟨2019, "10000 - 20000", 85000, 0⟩ : CarInfo) ∉ emptyStore.cars) ∧
    ((migrateRun emptyStore
        [⟨"Toyota", "Camry", 85000, 2019, "10000 - 20000"⟩,
         ⟨"Toyota", "Camry", 85000, 2019, "10000 - 20000"⟩]).cars
      = emptyStore.cars ++ stagedCars
          (afterModelPhase emptyStore
            [⟨"Toyota", "Camry", 85000, 2019, "10000 - 20000"⟩,
             ⟨"Toyota", "Camry", 85000, 2019, "10000 - 20000"⟩])
          (listingBatch emptyStore
            [⟨"Toyota", "Camry", 85000, 2019, "10000 - 20000"⟩,
             ⟨"Toyota", "Camry", 85000, 2019, "10000 - 20000"⟩]) ∧
    (migrateRun emptyStore
        [⟨"Toyota", "Camry", 85000, 2019, "10000 - 20000"⟩,
         ⟨"Toyota", "Camry", 85000, 2019, "10000 - 20000"⟩]).cars.count
        ⟨2019, "10000 - 20000", 85000, 0⟩
      = (listingBatch emptyStore
          [⟨"Toyota", "Camry", 85000, 2019, "10000 - 20000"⟩,
           ⟨"Toyota", "Camry", 85000, 2019, "10000 - 20000"⟩]).count
          ⟨2019, "10000 - 20000", 85000, 0⟩) :=
  ⟨by decide,
   listing_check_sees_only_prerun_rows emptyStore
     [⟨"Toyota", "Camry", 85000, 2019, "10000 - 20000"⟩,
      ⟨"Toyota", "Camry", 85000, 2019, "10000 - 20000"⟩]
     ⟨2019, "10000 - 20000", 85000, 0⟩ (by decide)⟩

theorem length_filter_name_assignModelIds (start : Nat)
    (ps : List (Nat × String)) (N : String) :
    ((assignModelIds start ps).filter
        (fun m => m.car_model_name == N)).length
      = (ps.filter (fun p => p.2 == N)).length := by
  induction ps generalizing start with
  | nil => rfl
  | cons p rest ih =>
    simp only [assignModelIds, List.filter_cons]
    by_cases hp : (p.2 == N) = true
    · rw [if_pos hp, if_pos hp]
      simp only [List.length_cons]
      rw [ih]
    · rw [if_neg hp, if_neg hp]
      exact ih (start + 1)

theorem nodup_brandPairs (s : Store) (df : List Row) :
    (brandPairs s df).Nodup := by
  rw [brandPairs, targetModels]
  exact nodup_uniqueFirst _

/-- C9: within one run the model phase's existence check sees only Model
rows that existed before the phase's batch insert, never pairs staged in the
same run: if the store has no Model named `N` and the rewritten dataset's
distinct pairs carrying `N` are exactly `(b1, N)` and `(b2, N)` with
`b1 ≠ b2`, both pairs are staged and inserted, leaving exactly two Model
rows named `N`; the rebuilt name→id dict then resolves `N` to the id of
exactly one of the new rows, and every dataset row with model name `N` is
rewritten to that single id. -/
theorem model_check_sees_only_prerun_rows (s : Store) (df : List Row)
    (N : String) (b1 b2 : Nat)
    (hs : ∀ m ∈ s.models, m.car_model_name ≠ N)
    (h1 : (b1, N) ∈ brandPairs s df)
    (h2 : (b2, N) ∈ brandPairs s df)
    (hne : b1 ≠ b2)
    (honly : ∀ p ∈ brandPairs s df, p.2 = N → p.1 = b1 ∨ p.1 = b2) :
    (b1, N) ∈ stagedModels (afterBrandPhase s df) (brandPairs s df) ∧
    (b2, N) ∈ stagedModels (afterBrandPhase s df) (brandPairs s df) ∧
    ((afterModelPhase s df).models.filter
        (fun m => m.car_model_name == N)).length = 2 ∧
    ∃ i, dlookup (modelDict (afterModelPhase s df).models) N = some i ∧
      (∃ m ∈ (afterModelPhase s df).models,
        m.car_model_id = i ∧ m.car_model_name = N ∧ m ∉ s.models) ∧
      ∀ r ∈ df, r.model_name = N →
        (mkCar (modelDict (afterModelPhase s df).models) r).car_model_id = i := by
  have hstage : ∀ b, (b, N) ∈ brandPairs s df →
      (b, N) ∈ stagedModels (afterBrandPhase s df) (brandPairs s df) := by
    intro b hb
    rw [mem_stagedModels_iff, afterBrandPhase_models]
    exact ⟨hb, fun m hm => hs m hm⟩
  have hsnil : s.models.filter (fun m => m.car_model_name == N) = [] := by
    rw [List.filter_eq_nil_iff]
    intro m hm
    simp [hs m hm]
  refine ⟨hstage b1 h1, hstage b2 h2, ?_, ?_⟩
  · rw [afterModelPhase_models, List.filter_append, hsnil, List.nil_append,
      length_filter_name_assignModelIds]
    have hstf : (stagedModels (afterBrandPhase s df) (brandPairs s df)).filter
        (fun p => p.2 == N)
        = (brandPairs s df).filter (fun p => p.2 == N) := by
      rw [stagedModels, List.filter_filter]
      apply List.filter_congr
      intro p hp
      by_cases hN : (p.2 == N) = true
      · have hpN : p.2 = N := by simpa using hN
        have hguard : ((afterBrandPhase s df).models.filter
            (fun m => m.car_model_name == p.2)).isEmpty = true := by
          rw [afterBrandPhase_models, hpN, hsnil]
          rfl
        rw [hN, hguard]
        rfl
      · have hN' : (p.2 == N) = false := by simpa using hN
        rw [hN']
        simp
    rw [hstf]
    have hmemiff : ∀ x, x ∈ (brandPairs s df).filter (fun p => p.2 == N) ↔
        x ∈ [(b1, N), (b2, N)] := by
      intro x
      rw [List.mem_filter]
      constructor
      · rintro ⟨hx, hxN⟩
        have hx2 : x.2 = N := by simpa using hxN
        have hx1 := honly x hx hx2
        cases x with
        | mk a b =>
          simp only at hx2
          subst hx2
          rcases hx1 with rfl | rfl
          · simp
          · simp
      · intro hx
        rcases List.mem_cons.mp hx with rfl | hx
        · exact ⟨h1, by simp⟩
        · rw [List.mem_singleton] at hx
          subst hx
          exact ⟨h2, by simp⟩
    have hnd1 : ((brandPairs s df).filter (fun p => p.2 == N)).Nodup :=
      (nodup_brandPairs s df).filter _
    have hnd2 : [(b1, N), (b2, N)].Nodup := by
      simp [hne]
    have hperm := (List.perm_ext_iff_of_nodup hnd1 hnd2).mpr hmemiff
    rw [hperm.length_eq]
    rfl
  · obtain ⟨m0, hm0, hm0n⟩ :=
      exists_model_named (afterBrandPhase s df) (brandPairs s df) h1
    obtain ⟨i, hi⟩ := dlookup_isSome (modelDict (afterModelPhase s df).models)
      ⟨(m0.car_model_name, m0.car_model_id), List.mem_map_of_mem _ hm0, hm0n⟩
    refine ⟨i, hi, ?_, ?_⟩
    · have hmm := dlookup_mem hi
      rw [modelDict] at hmm
      obtain ⟨m, hm, hmp⟩ := List.mem_map.mp hmm
      have hname : m.car_model_name = N := congrArg Prod.fst hmp
      have hid : m.car_model_id = i := congrArg Prod.snd hmp
      exact ⟨m, hm, hid, hname, fun hmem => hs m hmem hname⟩
    · intro r hr hrN
      show (dlookup (modelDict (afterModelPhase s df).models) r.model_name).getD 0 = i
      rw [hrN, hi]
      rfl

/-- Witness for C9: two brands, one shared model name "N", empty starting
store. -/
theorem model_check_sees_only_prerun_rows_witness :
    (∀ m ∈ emptyStore.models, m.car_model_name ≠ "N") ∧
    (0, "N") ∈ brandPairs emptyStore
      [⟨"BrandA", "N", 10000, 2015, "0 - 10000"⟩,
       ⟨"BrandB", "N", 20000, 2016, "10000 - 20000"⟩] ∧
    (1, "N") ∈ brandPairs emptyStore
      [⟨"BrandA", "N", 10000, 2015, "0 - 10000"⟩,
       ⟨"BrandB", "N", 20000, 2016, "10000 - 20000"⟩] ∧
    (0 : Nat) ≠ 1 ∧
    (∀ p ∈ brandPairs emptyStore
      [⟨"BrandA", "N", 10000, 2015, "0 - 10000"⟩,
       ⟨"BrandB", "N", 20000, 2016, "10000 - 20000"⟩],
      p.2 = "N" → p.1 = 0 ∨ p.1 = 1) ∧
    ((0, "N") ∈ stagedModels
        (afterBrandPhase emptyStore
          [⟨"BrandA", "N", 10000, 2015, "0 - 10000"⟩,
           ⟨"BrandB", "N", 20000, 2016, "10000 - 20000"⟩])
        (brandPairs emptyStore
          [⟨"BrandA", "N", 10000, 2015, "0 - 10000"⟩,
           ⟨"BrandB", "N", 20000, 2016, "10000 - 20000"⟩]) ∧
      (1, "N") ∈ stagedModels
        (afterBrandPhase emptyStore
          [⟨"BrandA", "N", 10000, 2015, "0 - 10000"⟩,
           ⟨"BrandB", "N", 20000, 2016, "10000 - 20000"⟩])
        (brandPairs emptyStore
          [⟨"BrandA", "N", 10000, 2015, "0 - 10000"⟩,
           ⟨"BrandB", "N", 20000, 2016, "10000 - 20000"⟩]) ∧
      ((afterModelPhase emptyStore
          [⟨"BrandA", "N", 10000, 2015, "0 - 10000"⟩,
           ⟨"BrandB", "N", 20000, 2016, "10000 - 20000"⟩]).models.filter
          (fun m => m.car_model_name == "N")).length = 2 ∧
      ∃ i, dlookup (modelDict (afterModelPhase emptyStore
          [⟨"BrandA", "N", 10000, 2015, "0 - 10000"⟩,
           ⟨"BrandB", "N", 20000, 2016, "10000 - 20000"⟩]).models) "N" = some i ∧
        (∃ m ∈ (afterModelPhase emptyStore
            [⟨"BrandA", "N", 10000, 2015, "0 - 10000"⟩,
             ⟨"BrandB", "N", 20000, 2016, "10000 - 20000"⟩]).models,
          m.car_model_id = i ∧ m.car_model_name = "N" ∧ m ∉ emptyStore.models) ∧
        ∀ r ∈ [(⟨"BrandA", "N", 10000, 2015, "0 - 10000"⟩ : Row),
               ⟨"BrandB", "N", 20000, 2016, "10000 - 20000"⟩],
          r.model_name = "N" →
          (mkCar (modelDict (afterModelPhase emptyStore
              [⟨"BrandA", "N", 10000, 2015, "0 - 10000"⟩,
               ⟨"BrandB", "N", 20000, 2016, "10000 - 20000"⟩]).models)
            r).car_model_id = i) :=
  ⟨by decide, by decide, by decide, by decide, by decide,
   model_check_sees_only_prerun_rows emptyStore
     [⟨"BrandA", "N", 10000, 2015, "0 - 10000"⟩,
      ⟨"BrandB", "N", 20000, 2016, "10000 - 20000"⟩]
     "N" 0 1 (by decide) (by decide) (by decide) (by decide) (by decide)⟩

theorem brandPhase_eq_of_staged_nil {s : Store} {df : List Row}
    (h : stagedBrands s df = []) : brandPhase s df = s := by
  cases s with
  | mk brands models cars nb nm => simp [brandPhase, h, assignBrandIds]

theorem modelPhase_eq_of_staged_nil {s : Store} {pairs : List (Nat × String)}
    (h : stagedModels s pairs = []) : modelPhase s pairs = s := by
  cases s with
  | mk brands models cars nb nm => simp [modelPhase, h, assignModelIds]

theorem listingPhase_eq_of_staged_nil {s : Store} {cars : List CarInfo}
    (h : stagedCars s cars = []) : listingPhase s cars = s := by
  cases s with
  | mk brands models cars0 nb nm => simp [listingPhase, h]

theorem stagedBrands_after_run (s : Store) (df : List Row) :
    stagedBrands (migrateRun s df) df = [] := by
  rw [stagedBrands, List.filter_eq_nil_iff]
  intro n hn hguard
  rw [mem_uniqueFirst] at hn
  obtain ⟨r, hr, hrn⟩ := List.mem_map.mp hn
  obtain ⟨b, hb, hbn⟩ := exists_brand_named s df hr
  simp only [List.isEmpty_eq_true, List.filter_eq_nil_iff] at hguard
  exact hguard b (by rw [migrateRun_brands]; exact hb) (by simp [hbn, hrn])

theorem afterBrandPhase_after_run (s : Store) (df : List Row) :
    afterBrandPhase (migrateRun s df) df = migrateRun s df :=
  brandPhase_eq_of_staged_nil (stagedBrands_after_run s df)

theorem brandPairs_after_run (s : Store) (df : List Row) :
    brandPairs (migrateRun s df) df = brandPairs s df := by
  rw [brandPairs, afterBrandPhase_after_run, migrateRun_brands]
  rfl

theorem stagedModels_after_run (s : Store) (df : List Row) :
    stagedModels (afterBrandPhase (migrateRun s df) df)
      (brandPairs (migrateRun s df) df) = [] := by
  rw [afterBrandPhase_after_run, brandPairs_after_run]
  rw [stagedModels, List.filter_eq_nil_iff]
  intro p hp hguard
  obtain ⟨m, hm, hmn⟩ :=
    exists_model_named (afterBrandPhase s df) (brandPairs s df) hp
  simp only [List.isEmpty_eq_true, List.filter_eq_nil_iff] at hguard
  exact hguard m (by rw [migrateRun_models]; exact hm) (by simp [hmn])

theorem afterModelPhase_after_run (s : Store) (df : List Row) :
    afterModelPhase (migrateRun s df) df = migrateRun s df := by
  rw [afterModelPhase,
    modelPhase_eq_of_staged_nil (stagedModels_after_run s df),
    afterBrandPhase_after_run]

theorem listingBatch_after_run (s : Store) (df : List Row) :
    listingBatch (migrateRun s df) df = listingBatch s df := by
  rw [listingBatch, afterModelPhase_after_run, migrateRun_models]
  rfl

theorem stagedCars_after_run (s : Store) (df : List Row) :
    stagedCars (afterModelPhase (migrateRun s df) df)
      (listingBatch (migrateRun s df) df) = [] := by
  rw [afterModelPhase_after_run, listingBatch_after_run]
  rw [stagedCars, List.filter_eq_nil_iff]
  intro c hc hguard
  simp only [List.isEmpty_eq_true, List.filter_eq_nil_iff] at hguard
  by_cases hcs : c ∈ stagedCars (afterModelPhase s df) (listingBatch s df)
  · exact hguard c (by rw [migrateRun_cars]; exact List.mem_append_right _ hcs)
      (carMatch_refl c)
  · have hchar := mem_stagedCars_iff (afterModelPhase s df) (listingBatch s df) c
    rw [afterModelPhase_cars] at hchar
    have hnot : ¬ (c ∈ listingBatch s df ∧ ∀ e ∈ s.cars, carMatch e c = false) :=
      fun hx => hcs (hchar.mpr hx)
    push_neg at hnot
    obtain ⟨e, he, hematch⟩ := hnot hc
    have hme : carMatch e c = true := by simpa using hematch
    exact hguard e (by rw [migrateRun_cars]; exact List.mem_append_left _ he) hme

/-- C1: `migrate` is idempotent: a second run on the same input and the
store the first run produced changes nothing — the second run stages no row
in any of the three phases, the store is exactly equal after it, and in
particular the Brand, Model and Listing row counts are those of a single
run. -/
theorem migrate_idempotent (s : Store) (df : List Row) :
    migrate (migrate s (some df)) (some df) = migrate s (some df) ∧
    migrateRun (migrateRun s df) df = migrateRun s df ∧
    (migrateRun (migrateRun s df) df).brands.length
      = (migrateRun s df).brands.length ∧
    (migrateRun (migrateRun s df) df).models.length
      = (migrateRun s df).models.length ∧
    (migrateRun (migrateRun s df) df).cars.length
      = (migrateRun s df).cars.length ∧
    stagedBrands (migrateRun s df) df = [] ∧
    stagedModels (afterBrandPhase (migrateRun s df) df)
      (brandPairs (migrateRun s df) df) = [] ∧
    stagedCars (afterModelPhase (migrateRun s df) df)
      (listingBatch (migrateRun s df) df) = [] := by
  have hmain : migrateRun (migrateRun s df) df = migrateRun s df := by
    show listingPhase (afterModelPhase (migrateRun s df) df)
        (listingBatch (migrateRun s df) df) = migrateRun s df
    rw [listingPhase_eq_of_staged_nil (stagedCars_after_run s df),
      afterModelPhase_after_run]
  exact ⟨hmain, hmain, by rw [hmain], by rw [hmain], by rw [hmain],
    stagedBrands_after_run s df, stagedModels_after_run s df,
    stagedCars_after_run s df⟩
